/-
Verification of the ChromaSQL specification against the repository.

The repository ships only its package entry point (`src/__init__.py`) and a
documentation macro module (`src/docs/main.py`); the compiler pipeline and
federation engine described by the spec are not present under `src/`.  Those
components are therefore modelled here from the spec's own words (each such
definition's doc comment starts with `Modelled from the spec:`), while the
package-export logic and the docs macro are embedded directly from the source.
-/
import Mathlib

namespace ChromaSQL

/-! ## Result rows and the merge step of the federation engine -/

/-- Modelled from the spec: a result row as seen by the merge step of the
multi-collection executor (`§4.5`), reduced to the data the merge consults —
the record identifier used for deduplication and tie-breaking, and the value
of the plan's ordering key. -/
structure Row where
  id : Nat
  key : Int
deriving DecidableEq, Repr

/-- Modelled from the spec: the merge ordering — the plan's ordering key,
ties broken by record identifier for determinism (`§4.5` step 5). -/
def rowLE (a b : Row) : Prop :=
  a.key < b.key ∨ (a.key = b.key ∧ a.id ≤ b.id)

instance : DecidableRel rowLE := fun a b => by
  unfold rowLE; infer_instance

instance : IsTotal Row rowLE where
  total a b := by
    rcases lt_trichotomy a.key b.key with h | h | h
    · exact Or.inl (Or.inl h)
    · rcases Nat.le_total a.id b.id with h' | h'
      · exact Or.inl (Or.inr ⟨h, h'⟩)
      · exact Or.inr (Or.inr ⟨h.symm, h'⟩)
    · exact Or.inr (Or.inl h)

instance : IsTrans Row rowLE where
  trans a b c hab hbc := by
    rcases hab with h1 | ⟨h1, h1'⟩ <;> rcases hbc with h2 | ⟨h2, h2'⟩
    · exact Or.inl (h1.trans h2)
    · exact Or.inl (h2 ▸ h1)
    · exact Or.inl (h1 ▸ h2)
    · exact Or.inr ⟨h1.trans h2, h1'.trans h2'⟩

instance : IsAntisymm Row rowLE where
  antisymm a b hab hba := by
    rcases hab with h1 | ⟨h1, h1'⟩ <;> rcases hba with h2 | ⟨h2, h2'⟩
    · exact absurd (h1.trans h2) (lt_irrefl _)
    · exact absurd h1 (h2 ▸ lt_irrefl _)
    · exact absurd h2 (h1 ▸ lt_irrefl _)
    · cases a; cases b
      simp only at h1 h1' h2'
      simp [h1, Nat.le_antisymm h1' h2']

/-- Modelled from the spec: the k-way merge of all returned rows, keyed by the
plan's ordering key with ties broken by record identifier (`§4.5` step 5).
On sorted per-collection inputs a k-way merge produces exactly the sorted
arrangement of all rows, so it is modelled as sorting the combined rows by
the merge ordering. -/
def sortRows (rs : List Row) : List Row :=
  rs.insertionSort rowLE

/-- Modelled from the spec: deduplication of rows sharing the same record
identifier — the first occurrence by merge order wins (`§4.5` step 5).
`seen` accumulates the identifiers already emitted. -/
def dedupSeen : List Row → List Nat → List Row
  | [], _ => []
  | r :: rs, seen =>
      if r.id ∈ seen then dedupSeen rs seen
      else r :: dedupSeen rs (r.id :: seen)

/-- Modelled from the spec: deduplicate a row sequence by record identifier,
keeping the first occurrence. -/
def dedupByIds (rs : List Row) : List Row :=
  dedupSeen rs []

/-- Modelled from the spec: the merge step of the federation engine — combine
all returned rows keyed by the ordering key (tie-break by identifier),
deduplicate by record identifier (first occurrence wins), then apply `offset`
and `limit` globally over the merged, deduplicated sequence (`§4.5` step 5). -/
def mergeStep (off lim : Nat) (results : List (List Row)) : List Row :=
  ((dedupByIds (sortRows results.flatten)).drop off).take lim

/-- Modelled from the spec: the total number of distinct-identifier rows after
merging and deduplicating, before offset/limit are applied. -/
def dedupCount (results : List (List Row)) : Nat :=
  (dedupByIds (sortRows results.flatten)).length

/-! ## Failure policy and the multi-collection executor -/

/-- Modelled from the spec: the configurable partial-failure policy of the
federation engine (`§4.5` step 4). -/
inductive Policy where
  | failFast
  | bestEffort
deriving DecidableEq, Repr

/-- Modelled from the spec: `ExecutionResult` — ordered sequence of result
rows plus a count and diagnostics naming the collections that did not
contribute (`§3`, `§4.5` step 4). -/
structure ExecutionResult where
  rows : List Row
  count : Nat
  failedCollections : List String
deriving DecidableEq, Repr

/-- Modelled from the spec: the context carried by a raised `ExecutionError`
in the federation path — the per-collection error list (`§4.5` step 4). -/
structure ExecutionError where
  collectionErrors : List (String × String)
deriving DecidableEq, Repr

/-- Modelled from the spec: the outcome of one per-collection task, recorded
as it completes — either the rows it returned or its error (`§4.5` step 3). -/
abbrev TaskOutcome := Except String (List Row)

deriving instance DecidableEq for Except

/-- Modelled from the spec: the per-collection errors accumulated from the
completed tasks, in completion order. -/
def collectErrors (completed : List (String × TaskOutcome)) :
    List (String × String) :=
  completed.filterMap fun t =>
    match t.2 with
    | .error e => some (t.1, e)
    | .ok _ => none

/-- Modelled from the spec: the row sequences of the tasks that succeeded,
in completion order. -/
def collectRows (completed : List (String × TaskOutcome)) : List (List Row) :=
  completed.filterMap fun t =>
    match t.2 with
    | .error _ => none
    | .ok rs => some rs

/-- Modelled from the spec: `execute_multi_collection` (`§4.5`) after fan-out,
applied to the per-collection task outcomes in the order the tasks completed.
Under `fail-fast` any failed task aborts the operation and raises an
`ExecutionError` with per-collection error context; under `best-effort` the
available rows are merged and returned with a diagnostics field listing the
collections that did not contribute. -/
def execute_multi_collection (off lim : Nat) (policy : Policy)
    (completed : List (String × TaskOutcome)) :
    Except ExecutionError ExecutionResult :=
  let errors := collectErrors completed
  let merged := mergeStep off lim (collectRows completed)
  match policy with
  | .failFast =>
      if errors.isEmpty then
        .ok ⟨merged, merged.length, []⟩
      else
        .error ⟨errors⟩
  | .bestEffort =>
      .ok ⟨merged, merged.length, errors.map Prod.fst⟩

/-! ## AST data model -/

/-- Modelled from the spec: literal values appearing in comparisons
(`§6` grammar: string and number literals). -/
inductive Lit where
  | str (s : String)
  | num (n : Int)
deriving DecidableEq, Repr

/-- Modelled from the spec: the comparison operators of the predicate grammar
(`§6`): `=`, `!=`, `<`, `<=`, `>`, `>=`. The `IN` form carries a literal list
and is a separate predicate node. -/
inductive CmpOp where
  | eq | ne | lt | le | gt | ge
deriving DecidableEq, Repr

/-- Modelled from the spec: predicate nodes — a recursive tree of AND, OR,
NOT, comparison(field, operator, literal), membership (`IN`), and the
similarity clause `MATCH <vector> WITHIN <k>` (`§3`, `§6`). -/
inductive Pred where
  | and (p q : Pred)
  | or (p q : Pred)
  | not (p : Pred)
  | cmp (field : String) (op : CmpOp) (lit : Lit)
  | inList (field : String) (vals : List Lit)
  | similarity (vec : List Int) (k : Nat)
deriving DecidableEq, Repr

/-- Modelled from the spec: one projection item — a metadata field (with an
optional output alias), the record identifier, the similarity score, or the
raw vector (`§3` `PlanProjectionItem`, `§6` projection list). -/
inductive ProjItem where
  | field (name : String) (asName : Option String)
  | recordId
  | similarityScore
  | rawVector
deriving DecidableEq, Repr

/-- Modelled from the spec: the projection clause — `*` or a non-empty list
of projection items (`§6`). -/
inductive Projection where
  | star
  | items (xs : List ProjItem)
deriving DecidableEq, Repr

/-- Modelled from the spec: the ordering key — similarity score or a named
field (`§3`, `§6`). -/
inductive OrderKey where
  | similarity
  | field (name : String)
deriving DecidableEq, Repr

/-- Modelled from the spec: the `ORDER BY` clause with its direction
(`§6`). -/
structure OrderClause where
  key : OrderKey
  ascending : Bool
deriving DecidableEq, Repr

/-- Modelled from the spec: the `Statement` AST produced by `parse` (`§4.1`,
`§6` grammar): projection, source collection, optional predicate, optional
ordering, optional limit and offset. -/
structure Statement where
  projection : Projection
  collection : String
  whereClause : Option Pred
  orderBy : Option OrderClause
  limit : Option Int
  offset : Option Int
deriving DecidableEq, Repr

/-! ## Lexer -/

/-- Modelled from the spec: lexer tokens — keywords (canonicalised to upper
case; keywords are case-insensitive per `§6`), identifiers, number and string
literals, and operator/punctuation symbols. -/
inductive Token where
  | kw (s : String)
  | ident (s : String)
  | num (n : Int)
  | str (s : String)
  | sym (s : String)
deriving DecidableEq, Repr

/-- Modelled from the spec: `ParseError` carries the offending token and its
position (`§7`). Lexer errors record a character position; parser errors
record the offending token. -/
structure ParseError where
  message : String
  position : Nat
  token : Option Token
deriving DecidableEq, Repr

/-- Modelled from the spec: the fixed keyword set of the grammar (`§6`). -/
def keywords : List String :=
  ["SELECT", "FROM", "WHERE", "ORDER", "BY", "ASC", "DESC", "LIMIT",
   "OFFSET", "AS", "ID", "SIMILARITY", "VECTOR", "AND", "OR", "NOT",
   "IN", "MATCH", "WITHIN"]

/-- Characters that may continue an identifier or keyword word. -/
def isIdentChar (c : Char) : Bool :=
  c.isAlphanum || c = '_'

/-- The single-quote character delimiting string literals. -/
def quoteChar : Char :=
  Char.ofNat 39

/-- Numeric value of a digit string. -/
def digitsVal (ds : List Char) : Nat :=
  ds.foldl (fun acc d => acc * 10 + (d.toNat - 48)) 0

/-- Modelled from the spec: the tokenizer — splits query text on
whitespace/operator/keyword boundaries (`§4.1`), recognising keywords
case-insensitively, identifiers, digit runs, single-quoted string literals
and the symbols of the grammar. `fuel` bounds recursion depth; every step
consumes at least one character, so `length + 1` fuel always suffices. -/
def lexChars : Nat → Nat → List Char → Except ParseError (List Token)
  | 0, pos, _ => .error ⟨"lexer fuel exhausted", pos, none⟩
  | _, _, [] => .ok []
  | fuel + 1, pos, c :: rest =>
    if c.isWhitespace then
      lexChars fuel (pos + 1) rest
    else if c.isDigit then
      let digits := (c :: rest).takeWhile Char.isDigit
      let rest' := (c :: rest).dropWhile Char.isDigit
      (lexChars fuel (pos + digits.length) rest').map
        (fun ts => Token.num (Int.ofNat (digitsVal digits)) :: ts)
    else if c.isAlpha || c = '_' then
      let word := (c :: rest).takeWhile isIdentChar
      let rest' := (c :: rest).dropWhile isIdentChar
      let w := String.mk word
      let wu := String.mk (word.map Char.toUpper)
      let tok :=
        if wu ∈ keywords then Token.kw wu else Token.ident w
      (lexChars fuel (pos + word.length) rest').map (fun ts => tok :: ts)
    else if c = quoteChar then
      let content := rest.takeWhile (fun d => d ≠ quoteChar)
      let rest' := rest.dropWhile (fun d => d ≠ quoteChar)
      match rest' with
      | [] => .error ⟨"unterminated string literal", pos, none⟩
      | _ :: rest'' =>
        (lexChars fuel (pos + content.length + 2) rest'').map
          (fun ts => Token.str (String.mk content) :: ts)
    else if c = '!' then
      match rest with
      | '=' :: rest' =>
        (lexChars fuel (pos + 2) rest').map (fun ts => Token.sym "!=" :: ts)
      | _ => .error ⟨"expected = after !", pos, none⟩
    else if c = '<' then
      match rest with
      | '=' :: rest' =>
        (lexChars fuel (pos + 2) rest').map (fun ts => Token.sym "<=" :: ts)
      | _ =>
        (lexChars fuel (pos + 1) rest).map (fun ts => Token.sym "<" :: ts)
    else if c = '>' then
      match rest with
      | '=' :: rest' =>
        (lexChars fuel (pos + 2) rest').map (fun ts => Token.sym ">=" :: ts)
      | _ =>
        (lexChars fuel (pos + 1) rest).map (fun ts => Token.sym ">" :: ts)
    else if c = '=' || c = ',' || c = '*' || c = '(' || c = ')' ||
        c = '[' || c = ']' then
      (lexChars fuel (pos + 1) rest).map
        (fun ts => Token.sym (String.mk [c]) :: ts)
    else
      .error ⟨"unexpected character", pos, none⟩

/-- Modelled from the spec: tokenize a whole query text. -/
def tokenize (text : String) : Except ParseError (List Token) :=
  lexChars (text.length + 1) 0 text.toList

/-! ## Parser -/

/-- Error used when a fuel counter runs out; on well-formed fuel this is
unreachable. -/
def fuelErr : ParseError :=
  ⟨"parser fuel exhausted", 0, none⟩

/-- Consume an expected keyword token. -/
def expectKw (k : String) (ts : List Token) :
    Except ParseError (List Token) :=
  match ts with
  | Token.kw k' :: rest =>
      if k' = k then .ok rest
      else .error ⟨"expected " ++ k, 0, some (Token.kw k')⟩
  | t :: _ => .error ⟨"expected " ++ k, 0, some t⟩
  | [] => .error ⟨"unexpected end of input", 0, none⟩

/-- Consume an identifier token. -/
def expectIdent (ts : List Token) :
    Except ParseError (String × List Token) :=
  match ts with
  | Token.ident s :: rest => .ok (s, rest)
  | t :: _ => .error ⟨"expected identifier", 0, some t⟩
  | [] => .error ⟨"unexpected end of input", 0, none⟩

/-- Parse a literal (string or number). -/
def parseLit (ts : List Token) : Except ParseError (Lit × List Token) :=
  match ts with
  | Token.str s :: rest => .ok (Lit.str s, rest)
  | Token.num n :: rest => .ok (Lit.num n, rest)
  | t :: _ => .error ⟨"expected literal", 0, some t⟩
  | [] => .error ⟨"unexpected end of input", 0, none⟩

/-- Parse a comparison operator symbol. -/
def parseCmpOp (ts : List Token) : Except ParseError (CmpOp × List Token) :=
  match ts with
  | Token.sym "=" :: r => .ok (CmpOp.eq, r)
  | Token.sym "!=" :: r => .ok (CmpOp.ne, r)
  | Token.sym "<=" :: r => .ok (CmpOp.le, r)
  | Token.sym "<" :: r => .ok (CmpOp.lt, r)
  | Token.sym ">=" :: r => .ok (CmpOp.ge, r)
  | Token.sym ">" :: r => .ok (CmpOp.gt, r)
  | t :: _ => .error ⟨"expected comparison operator", 0, some t⟩
  | [] => .error ⟨"unexpected end of input", 0, none⟩

/-- Parse the remainder of a bracketed vector literal after its first
component. -/
def parseVecTail : Nat → List Token → Except ParseError (List Int × List Token)
  | 0, _ => .error fuelErr
  | fuel + 1, ts =>
    match ts with
    | Token.sym "]" :: rest => .ok ([], rest)
    | Token.sym "," :: Token.num n :: rest =>
        (parseVecTail fuel rest).map (fun p => (n :: p.1, p.2))
    | t :: _ => .error ⟨"expected , or ] in vector literal", 0, some t⟩
    | [] => .error ⟨"unexpected end of input in vector literal", 0, none⟩

/-- Parse a bracketed vector literal `[n, n, ...]`. -/
def parseVec (ts : List Token) : Except ParseError (List Int × List Token) :=
  match ts with
  | Token.sym "[" :: Token.sym "]" :: rest => .ok ([], rest)
  | Token.sym "[" :: Token.num n :: rest =>
      (parseVecTail (rest.length + 1) rest).map (fun p => (n :: p.1, p.2))
  | t :: _ => .error ⟨"expected vector literal", 0, some t⟩
  | [] => .error ⟨"unexpected end of input", 0, none⟩

/-- Parse the remainder of a parenthesised literal list after its first
element. -/
def parseLitListTail : Nat → List Token →
    Except ParseError (List Lit × List Token)
  | 0, _ => .error fuelErr
  | fuel + 1, ts =>
    match ts with
    | Token.sym ")" :: rest => .ok ([], rest)
    | Token.sym "," :: rest => do
        let (l, r1) ← parseLit rest
        (parseLitListTail fuel r1).map (fun p => (l :: p.1, p.2))
    | t :: _ => .error ⟨"expected , or ) in literal list", 0, some t⟩
    | [] => .error ⟨"unexpected end of input in literal list", 0, none⟩

mutual

/-- Modelled from the spec: parse a predicate — `OR` has the lowest
precedence (`§6`). -/
def parseOrPred : Nat → List Token → Except ParseError (Pred × List Token)
  | 0, _ => .error fuelErr
  | fuel + 1, ts => do
    let (p, r) ← parseAndPred fuel ts
    parseOrTail fuel p r

/-- Fold further `OR`-separated conjuncts onto `p`. -/
def parseOrTail : Nat → Pred → List Token →
    Except ParseError (Pred × List Token)
  | 0, _, _ => .error fuelErr
  | fuel + 1, p, ts =>
    match ts with
    | Token.kw "OR" :: rest => do
        let (q, r) ← parseAndPred fuel rest
        parseOrTail fuel (Pred.or p q) r
    | _ => .ok (p, ts)

/-- Parse an `AND`-level predicate. -/
def parseAndPred : Nat → List Token → Except ParseError (Pred × List Token)
  | 0, _ => .error fuelErr
  | fuel + 1, ts => do
    let (p, r) ← parseUnary fuel ts
    parseAndTail fuel p r

/-- Fold further `AND`-separated factors onto `p`. -/
def parseAndTail : Nat → Pred → List Token →
    Except ParseError (Pred × List Token)
  | 0, _, _ => .error fuelErr
  | fuel + 1, p, ts =>
    match ts with
    | Token.kw "AND" :: rest => do
        let (q, r) ← parseUnary fuel rest
        parseAndTail fuel (Pred.and p q) r
    | _ => .ok (p, ts)

/-- Parse a possibly `NOT`-prefixed predicate factor. -/
def parseUnary : Nat → List Token → Except ParseError (Pred × List Token)
  | 0, _ => .error fuelErr
  | fuel + 1, ts =>
    match ts with
    | Token.kw "NOT" :: rest =>
        (parseUnary fuel rest).map (fun p => (Pred.not p.1, p.2))
    | _ => parseAtom fuel ts

/-- Parse an atomic predicate: a parenthesised predicate, a similarity
clause `MATCH <vector> WITHIN <k>`, an `IN` membership test, or a
comparison. -/
def parseAtom : Nat → List Token → Except ParseError (Pred × List Token)
  | 0, _ => .error fuelErr
  | fuel + 1, ts =>
    match ts with
    | Token.sym "(" :: rest => do
        let (p, r) ← parseOrPred fuel rest
        match r with
        | Token.sym ")" :: r' => .ok (p, r')
        | t :: _ => .error ⟨"expected )", 0, some t⟩
        | [] => .error ⟨"unexpected end of input, expected )", 0, none⟩
    | Token.kw "MATCH" :: rest => do
        let (vec, r) ← parseVec rest
        match r with
        | Token.kw "WITHIN" :: Token.num (Int.ofNat k) :: r' =>
            .ok (Pred.similarity vec k, r')
        | t :: _ => .error ⟨"expected WITHIN <k>", 0, some t⟩
        | [] => .error ⟨"unexpected end of input, expected WITHIN", 0, none⟩
    | Token.ident f :: Token.kw "IN" :: Token.sym "(" :: rest => do
        let (l, r1) ← parseLit rest
        let (vs, r2) ← parseLitListTail (r1.length + 1) r1
        .ok (Pred.inList f (l :: vs), r2)
    | Token.ident f :: rest => do
        let (op, r1) ← parseCmpOp rest
        let (l, r2) ← parseLit r1
        .ok (Pred.cmp f op l, r2)
    | t :: _ => .error ⟨"expected predicate", 0, some t⟩
    | [] => .error ⟨"unexpected end of input, expected predicate", 0, none⟩

end

/-- Parse one projection item (`§6`). -/
def parseProjItem (ts : List Token) :
    Except ParseError (ProjItem × List Token) :=
  match ts with
  | Token.kw "ID" :: r => .ok (ProjItem.recordId, r)
  | Token.kw "SIMILARITY" :: r => .ok (ProjItem.similarityScore, r)
  | Token.kw "VECTOR" :: r => .ok (ProjItem.rawVector, r)
  | Token.ident f :: Token.kw "AS" :: Token.ident a :: r =>
      .ok (ProjItem.field f (some a), r)
  | Token.ident f :: r => .ok (ProjItem.field f none, r)
  | t :: _ => .error ⟨"expected projection item", 0, some t⟩
  | [] => .error ⟨"unexpected end of input", 0, none⟩

/-- Parse further comma-separated projection items. -/
def parseProjTail : Nat → List Token →
    Except ParseError (List ProjItem × List Token)
  | 0, _ => .error fuelErr
  | fuel + 1, ts =>
    match ts with
    | Token.sym "," :: rest => do
        let (x, r) ← parseProjItem rest
        (parseProjTail fuel r).map (fun p => (x :: p.1, p.2))
    | _ => .ok ([], ts)

/-- Parse the projection clause: `*` or a comma-separated item list. -/
def parseProjection (ts : List Token) :
    Except ParseError (Projection × List Token) :=
  match ts with
  | Token.sym "*" :: r => .ok (Projection.star, r)
  | _ => do
      let (x, r) ← parseProjItem ts
      (parseProjTail (r.length + 1) r).map
        (fun p => (Projection.items (x :: p.1), p.2))

/-- Parse the ordering key and optional direction after `ORDER BY`. -/
def parseOrderKeyDir (ts : List Token) :
    Except ParseError (OrderClause × List Token) := do
  let (key, r) ←
    match ts with
    | Token.kw "SIMILARITY" :: r => .ok (OrderKey.similarity, r)
    | Token.ident f :: r => .ok (OrderKey.field f, r)
    | t :: _ => .error ⟨"expected SIMILARITY or field", 0, some t⟩
    | ([] : List Token) => .error ⟨"unexpected end of input", 0, none⟩
  match r with
  | Token.kw "ASC" :: r' => .ok (⟨key, true⟩, r')
  | Token.kw "DESC" :: r' => .ok (⟨key, false⟩, r')
  | _ => .ok (⟨key, true⟩, r)

/-- Modelled from the spec: parse a full `SELECT` statement over the token
stream (`§6` grammar). -/
def parseStatement (ts : List Token) : Except ParseError Statement := do
  let ts1 ← expectKw "SELECT" ts
  let (proj, ts2) ← parseProjection ts1
  let ts3 ← expectKw "FROM" ts2
  let (coll, ts4) ← expectIdent ts3
  let (wpred, ts5) ←
    match ts4 with
    | Token.kw "WHERE" :: rest =>
        (parseOrPred (rest.length * 5 + 10) rest).map
          (fun p => (some p.1, p.2))
    | _ => .ok ((none : Option Pred), ts4)
  let (ord, ts6) ←
    match ts5 with
    | Token.kw "ORDER" :: Token.kw "BY" :: rest =>
        (parseOrderKeyDir rest).map (fun p => (some p.1, p.2))
    | _ => .ok ((none : Option OrderClause), ts5)
  let (lim, offs, ts7) ←
    match ts6 with
    | Token.kw "LIMIT" :: Token.num n :: Token.kw "OFFSET" ::
        Token.num m :: rest => .ok (some n, some m, rest)
    | Token.kw "LIMIT" :: Token.num n :: rest => .ok (some n, none, rest)
    | Token.kw "LIMIT" :: t :: _ => .error ⟨"expected number", 0, some t⟩
    | Token.kw "LIMIT" :: ([] : List Token) =>
        .error ⟨"unexpected end of input after LIMIT", 0, none⟩
    | _ => .ok ((none : Option Int), (none : Option Int), ts6)
  match ts7 with
  | [] => .ok ⟨proj, coll, wpred, ord, lim, offs⟩
  | t :: _ => .error ⟨"unexpected trailing tokens", 0, some t⟩

/-- Modelled from the spec: `parse(text) → Statement` — tokenize the query
text and parse it into a `Statement` AST, or fail with a `ParseError`
(`§4.1`). -/
def parse (text : String) : Except ParseError Statement := do
  let ts ← tokenize text
  parseStatement ts

/-! ## Planner -/

/-- Modelled from the spec: field types known to the schema, enough to
type-check ordinal comparisons (`§4.2`). -/
inductive FieldType where
  | text
  | numeric
deriving DecidableEq, Repr

/-- Modelled from the spec: the schema for one collection — known metadata
field names with their types (`§4.2`). -/
abbrev Schema := List (String × FieldType)

/-- Modelled from the spec: `PlanningError` — semantically invalid query:
unknown field (named), type mismatch, or invalid limit/offset (`§4.2`,
`§7`). -/
inductive PlanningError where
  | unresolvedField (name : String)
  | typeMismatch (field : String)
  | invalidLimit (n : Int)
  | invalidOffset (n : Int)
deriving DecidableEq, Repr

/-- Modelled from the spec: `PlanProjectionItem` — a metadata field, the
record identifier, the similarity score, or the raw vector, with an optional
output alias (`§3`); structurally the resolved form of a projection item. -/
abbrev PlanProjectionItem := ProjItem

/-- Modelled from the spec: `QueryPlan` — the validated, resolved form of a
statement: ordered projection items, resolved predicate tree, optional
ordering key, optional (validated, non-negative) limit and offset, and the
target collection names (`§3`). -/
structure QueryPlan where
  projection : List PlanProjectionItem
  pred : Option Pred
  orderBy : Option OrderClause
  limit : Option Nat
  offset : Option Nat
  targets : List String
deriving DecidableEq, Repr

/-- Resolve one field name against the schema, failing with a
`PlanningError` that names the field (`§4.2`). -/
def resolveField (schema : Schema) (name : String) :
    Except PlanningError FieldType :=
  match schema.lookup name with
  | some t => .ok t
  | none => .error (.unresolvedField name)

/-- Comparison operators that require an ordinal (numeric) field (`§4.2`). -/
def isOrdinal : CmpOp → Bool
  | .lt | .le | .gt | .ge => true
  | .eq | .ne => false

/-- Modelled from the spec: resolve and type-check every field reference of
a predicate tree against the schema, failing fast on the first error
(`§4.2`). -/
def checkPred (schema : Schema) : Pred → Except PlanningError Unit
  | .and p q => do
      checkPred schema p
      checkPred schema q
  | .or p q => do
      checkPred schema p
      checkPred schema q
  | .not p => checkPred schema p
  | .cmp f op _ => do
      let t ← resolveField schema f
      if isOrdinal op && t ≠ FieldType.numeric then
        .error (.typeMismatch f)
      else
        .ok ()
  | .inList f _ => do
      let _ ← resolveField schema f
      .ok ()
  | .similarity _ _ => .ok ()

/-- Resolve every field named by a projection item list (`§4.2`). -/
def checkProjItems (schema : Schema) :
    List ProjItem → Except PlanningError Unit
  | [] => .ok ()
  | ProjItem.field f _ :: rest => do
      let _ ← resolveField schema f
      checkProjItems schema rest
  | _ :: rest => checkProjItems schema rest

/-- Expansion of a `*` projection: every schema field in schema order,
unaliased. -/
def expandStar (schema : Schema) : List PlanProjectionItem :=
  schema.map (fun p => ProjItem.field p.1 none)

/-- Resolve the field named by the `ORDER BY` clause, if any (`§4.2`). -/
def checkOrder (schema : Schema) :
    Option OrderClause → Except PlanningError Unit
  | some ⟨OrderKey.field f, _⟩ => (resolveField schema f).map (fun _ => ())
  | _ => .ok ()

/-- Validate that a declared limit is a non-negative integer (`§4.2`). -/
def checkLimit : Option Int → Except PlanningError (Option Nat)
  | none => .ok none
  | some n => if n < 0 then .error (.invalidLimit n) else .ok (some n.toNat)

/-- Validate that a declared offset is a non-negative integer (`§4.2`). -/
def checkOffset : Option Int → Except PlanningError (Option Nat)
  | none => .ok none
  | some n => if n < 0 then .error (.invalidOffset n) else .ok (some n.toNat)

/-- Resolve the projection clause: expand `*` over the schema, or check the
named items (`§4.2`). -/
def checkProjection (schema : Schema) :
    Projection → Except PlanningError (List PlanProjectionItem)
  | .star => .ok (expandStar schema)
  | .items xs => do
      checkProjItems schema xs
      .ok xs

/-- Resolve the optional `WHERE` predicate (`§4.2`). -/
def checkWhere (schema : Schema) : Option Pred → Except PlanningError Unit
  | some p => checkPred schema p
  | none => .ok ()

/-- Modelled from the spec: `build_plan(statement, schema) → QueryPlan` —
resolve every field reference of the projection, predicate and order clauses
against the schema, type-check comparisons, validate limit/offset, and build
the `QueryPlan`; the first validation error aborts planning (`§4.2`). -/
def build_plan (stmt : Statement) (schema : Schema) :
    Except PlanningError QueryPlan := do
  let proj ← checkProjection schema stmt.projection
  checkWhere schema stmt.whereClause
  checkOrder schema stmt.orderBy
  let lim ← checkLimit stmt.limit
  let offs ← checkOffset stmt.offset
  .ok ⟨proj, stmt.whereClause, stmt.orderBy, lim, offs, [stmt.collection]⟩

/-- Field names referenced by a predicate tree. -/
def predFields : Pred → List String
  | .and p q => predFields p ++ predFields q
  | .or p q => predFields p ++ predFields q
  | .not p => predFields p
  | .cmp f _ _ => [f]
  | .inList f _ => [f]
  | .similarity _ _ => []

/-- Field names referenced by one projection item. -/
def projItemFields : PlanProjectionItem → List String
  | .field f _ => [f]
  | _ => []

/-- Every field reference appearing in a plan's projection, predicate and
order clauses. -/
def planFieldRefs (plan : QueryPlan) : List String :=
  (plan.projection.map projItemFields).flatten ++
  (match plan.pred with
   | some p => predFields p
   | none => []) ++
  (match plan.orderBy with
   | some ⟨OrderKey.field f, _⟩ => [f]
   | _ => [])

/-! ## Collection router -/

/-- Modelled from the spec: the routing registry — a designated routing
metadata field, optionally a rule set mapping an equality value of that
field to a collection name (`none` = no routing rule exists for the field),
and the full set of registered collections (`§4.4`). -/
structure Registry where
  routingField : String
  rules : Option (List (String × String))
  collections : List String
deriving DecidableEq, Repr

/-- Modelled from the spec: the equality values pinning `field` in the
predicate tree, collected over conjunctive positions only — a disjunction,
negation, range or membership constraint does not pin the field
(`§4.4` steps 1–3). -/
def eqValuesOn (field : String) : Pred → List String
  | .and p q => eqValuesOn field p ++ eqValuesOn field q
  | .cmp f CmpOp.eq (Lit.str v) => if f = field then [v] else []
  | _ => []

/-- Modelled from the spec: `route(plan, registry)` (`§4.4`): with no
routing rule for the field, fan out to all registered collections; with
exactly one equality value on the routing field, route to the single
matching collection; otherwise fan out conservatively to every collection a
rule could match. -/
def route (plan : QueryPlan) (reg : Registry) : List String :=
  match reg.rules with
  | none => reg.collections
  | some rs =>
    let vs :=
      (match plan.pred with
       | some p => eqValuesOn reg.routingField p
       | none => []).dedup
    match vs with
    | [v] =>
      match rs.lookup v with
      | some c => [c]
      | none => reg.collections
    | _ => (rs.map Prod.snd).dedup

/-! ## Plan introspection -/

/-- Modelled from the spec: the nested, order-preserving key/value structure
(mapping/sequence/scalar) that `plan_to_dict` renders a plan into (`§6`). -/
inductive Value where
  | str (s : String)
  | num (n : Int)
  | bool (b : Bool)
  | null
  | arr (xs : List Value)
  | obj (fields : List (String × Value))

/-- Scalar rendering of a literal. -/
def litToValue : Lit → Value
  | .str s => .str s
  | .num n => .num n

/-- Name of a comparison operator as rendered in the structure. -/
def cmpOpName : CmpOp → String
  | .eq => "="
  | .ne => "!="
  | .lt => "<"
  | .le => "<="
  | .gt => ">"
  | .ge => ">="

/-- Rendering of a predicate tree as a nested mapping. -/
def predToValue : Pred → Value
  | .and p q =>
      .obj [("op", .str "and"), ("left", predToValue p),
            ("right", predToValue q)]
  | .or p q =>
      .obj [("op", .str "or"), ("left", predToValue p),
            ("right", predToValue q)]
  | .not p => .obj [("op", .str "not"), ("operand", predToValue p)]
  | .cmp f op l =>
      .obj [("op", .str "cmp"), ("field", .str f),
            ("cmp", .str (cmpOpName op)), ("value", litToValue l)]
  | .inList f vs =>
      .obj [("op", .str "in"), ("field", .str f),
            ("values", .arr (vs.map litToValue))]
  | .similarity vec k =>
      .obj [("op", .str "match"), ("vector", .arr (vec.map Value.num)),
            ("k", .num (Int.ofNat k))]

/-- Rendering of an optional alias. -/
def optStrToValue : Option String → Value
  | none => .null
  | some s => .str s

/-- Rendering of one projection item. -/
def projItemToValue : PlanProjectionItem → Value
  | .field f a =>
      .obj [("kind", .str "field"), ("name", .str f),
            ("alias", optStrToValue a)]
  | .recordId => .obj [("kind", .str "id")]
  | .similarityScore => .obj [("kind", .str "similarity")]
  | .rawVector => .obj [("kind", .str "vector")]

/-- Rendering of the ordering clause. -/
def orderToValue (o : OrderClause) : Value :=
  .obj [("key",
          match o.key with
          | .similarity => .str "similarity"
          | .field f => .obj [("field", .str f)]),
        ("ascending", .bool o.ascending)]

/-- Rendering of an optional component, `null` when absent. -/
def optToValue (f : α → Value) : Option α → Value
  | none => .null
  | some x => f x

/-- Modelled from the spec: `plan_to_dict` — the pure function rendering any
`QueryPlan` into a nested, order-preserving key/value structure suitable for
serialization or display (`§6`; exported by `src/__init__.py`). -/
def plan_to_dict (plan : QueryPlan) : Value :=
  .obj [("projection", .arr (plan.projection.map projItemToValue)),
        ("predicate", optToValue predToValue plan.pred),
        ("order_by", optToValue orderToValue plan.orderBy),
        ("limit", optToValue (fun n => Value.num (Int.ofNat n)) plan.limit),
        ("offset", optToValue (fun n => Value.num (Int.ofNat n)) plan.offset),
        ("collections", .arr (plan.targets.map Value.str))]

/-- Field-by-field reading of a literal back from the structure. -/
def valueToLit : Value → Option Lit
  | .str s => some (.str s)
  | .num n => some (.num n)
  | _ => none

/-- Reading a comparison operator back from its rendered name. -/
def nameToCmpOp (s : String) : Option CmpOp :=
  if s = "=" then some .eq
  else if s = "!=" then some .ne
  else if s = "<" then some .lt
  else if s = "<=" then some .le
  else if s = ">" then some .gt
  else if s = ">=" then some .ge
  else none

/-- Reading an integer back as a count. -/
def valueToNat : Value → Option Nat
  | .num (Int.ofNat n) => some n
  | _ => none

/-- Reading a string scalar back. -/
def valueToStr : Value → Option String
  | .str s => some s
  | _ => none

/-- Reading an optional component back (`null` = absent). -/
def valueToOpt (f : Value → Option α) : Value → Option (Option α)
  | .null => some none
  | v => (f v).map some

/-- Field-by-field reading of a predicate tree back from the structure. -/
def valueToPred : Value → Option Pred
  | .obj [("op", .str "and"), ("left", l), ("right", r)] => do
      let p ← valueToPred l
      let q ← valueToPred r
      some (.and p q)
  | .obj [("op", .str "or"), ("left", l), ("right", r)] => do
      let p ← valueToPred l
      let q ← valueToPred r
      some (.or p q)
  | .obj [("op", .str "not"), ("operand", v)] => do
      let p ← valueToPred v
      some (.not p)
  | .obj [("op", .str "cmp"), ("field", .str f), ("cmp", .str o),
          ("value", lv)] => do
      let op ← nameToCmpOp o
      let l ← valueToLit lv
      some (.cmp f op l)
  | .obj [("op", .str "in"), ("field", .str f), ("values", .arr vs)] => do
      let ls ← vs.mapM valueToLit
      some (.inList f ls)
  | .obj [("op", .str "match"), ("vector", .arr vs), ("k", kv)] => do
      let vec ← vs.mapM (fun v =>
        match v with
        | Value.num n => some n
        | _ => none)
      let k ← valueToNat kv
      some (.similarity vec k)
  | _ => none

/-- Field-by-field reading of a projection item back from the structure. -/
def valueToProjItem : Value → Option PlanProjectionItem
  | .obj [("kind", .str "field"), ("name", .str f), ("alias", av)] =>
      match av with
      | .null => some (.field f none)
      | .str a => some (.field f (some a))
      | _ => none
  | .obj [("kind", .str "id")] => some .recordId
  | .obj [("kind", .str "similarity")] => some .similarityScore
  | .obj [("kind", .str "vector")] => some .rawVector
  | _ => none

/-- Field-by-field reading of the ordering clause back from the
structure. -/
def valueToOrder : Value → Option OrderClause
  | .obj [("key", kv), ("ascending", .bool b)] =>
      match kv with
      | .str "similarity" => some ⟨.similarity, b⟩
      | .obj [("field", .str f)] => some ⟨.field f, b⟩
      | _ => none
  | _ => none

/-- Field-by-field reading of a whole plan back from the rendered
structure. -/
def plan_from_dict : Value → Option QueryPlan
  | .obj [("projection", .arr ps), ("predicate", pv), ("order_by", ov),
          ("limit", lv), ("offset", sv), ("collections", .arr cs)] => do
      let proj ← ps.mapM valueToProjItem
      let pred ← valueToOpt valueToPred pv
      let ord ← valueToOpt valueToOrder ov
      let lim ← valueToOpt valueToNat lv
      let offs ← valueToOpt valueToNat sv
      let colls ← cs.mapM valueToStr
      some ⟨proj, pred, ord, lim, offs, colls⟩
  | _ => none

/-! ## Package exports (`src/__init__.py`) -/

/-- The core entries of `__all__` in `src/__init__.py` (lines 35–51),
always present. -/
def coreExports : List String :=
  ["parse", "build_plan", "plan_to_dict", "execute_plan", "ExecutionResult",
   "QueryPlan", "PlanProjectionItem", "ChromaSQLError", "ChromaSQLParseError",
   "ChromaSQLPlanningError", "ChromaSQLExecutionError",
   "extract_metadata_values"]

/-- The multi-collection entries appended to `__all__` when the feature is
available (`src/__init__.py` lines 54–64). -/
def multiExports : List String :=
  ["CollectionRouter", "AsyncCollectionProvider", "execute_multi_collection",
   "AsyncMultiCollectionAdapter", "MetadataFieldRouter",
   "SimpleAsyncClientAdapter"]

/-- The availability flag of `src/__init__.py` (lines 18–33): the `try`
block imports `.multi_collection` and then `.adapters`; the flag is `True`
exactly when both imports succeed, and an `ImportError` from either leaves
it `False`. `multiOk` and `adaptersOk` abstract whether each module's import
succeeds (fails with `ImportError`) in the running environment. -/
def _MULTI_COLLECTION_AVAILABLE (multiOk adaptersOk : Bool) : Bool :=
  multiOk && adaptersOk

/-- The final `__all__` of `src/__init__.py`: the core names, extended with
the multi-collection names exactly when the availability flag is set
(lines 35–64). -/
def __all__ (multiOk adaptersOk : Bool) : List String :=
  coreExports ++
    (if _MULTI_COLLECTION_AVAILABLE multiOk adaptersOk then multiExports
     else [])

/-! ## Documentation macro (`src/docs/main.py`) -/

/-- A pure POSIX-style path in the manner of `pathlib`: whether the path is
absolute, plus its segment list. `pathlib` keeps `..` segments as written
(it never resolves them), and drops empty and `.` segments. -/
structure PurePath where
  absolute : Bool
  segments : List String
deriving DecidableEq, Repr

/-- The `/` join operator of `pathlib`: joining with an absolute right
operand discards the left operand entirely; otherwise the segments are
concatenated. -/
def joinPath (p q : PurePath) : PurePath :=
  if q.absolute then q else ⟨p.absolute, p.segments ++ q.segments⟩

/-- Split a character list on `/` separators. -/
def splitSegsAux : List Char → List Char → List String
  | [], cur => [String.mk cur.reverse]
  | c :: rest, cur =>
      if c = '/' then String.mk cur.reverse :: splitSegsAux rest []
      else splitSegsAux rest (c :: cur)

/-- How `pathlib` reads a path string: a leading `/` makes it absolute;
empty segments (repeated slashes) and `.` segments are dropped; `..`
segments are kept. -/
def parsePath (s : String) : PurePath :=
  ⟨(match s.toList with
    | c :: _ => c = '/'
    | [] => false),
   (splitSegsAux s.toList []).filter (fun seg => seg != "" && seg != ".")⟩

/-- `DOCS_ROOT = Path(__file__).parent` (`src/docs/main.py` line 7): the
absolute directory holding the docs module; a representative concrete
location. -/
def DOCS_ROOT : PurePath :=
  ⟨true, ["repo", "src", "docs"]⟩

/-- Contents of a file on disk: UTF-8 decodable text, or bytes that are not
valid UTF-8. -/
inductive FileData where
  | utf8 (text : String)
  | binary
deriving DecidableEq, Repr

/-- The failure modes of `Path.read_text`: the file does not exist, or its
bytes do not decode as UTF-8. -/
inductive ReadError where
  | notFound
  | decodeError
deriving DecidableEq, Repr

/-- A snapshot of the filesystem: which paths hold which file contents. -/
abbrev FileSystem := PurePath → Option FileData

/-- Embedded from `src/docs/main.py` (lines 13–17): the `read_file` macro —
`file_path = DOCS_ROOT / relative_path` followed by
`file_path.read_text(encoding="utf-8")`. No containment or existence check
is performed; a missing file or undecodable bytes make the call raise. -/
def read_file (fs : FileSystem) (relative_path : String) :
    Except ReadError String :=
  let file_path := joinPath DOCS_ROOT (parsePath relative_path)
  match fs file_path with
  | none => .error .notFound
  | some .binary => .error .decodeError
  | some (.utf8 t) => .ok t

/-- Segment normalization resolving `..` steps, used to judge whether a
joined path still lies inside the docs directory. -/
def normSegs (segs : List String) : List String :=
  segs.foldl (fun acc s => if s = ".." then acc.dropLast else acc ++ [s]) []

/-- Whether a path, after resolving `..` segments, still lies inside
`DOCS_ROOT`. -/
def insideDocsRoot (p : PurePath) : Bool :=
  p.absolute &&
    (normSegs p.segments).take DOCS_ROOT.segments.length ==
      DOCS_ROOT.segments

/-! ## Merge lemmas -/

attribute [instance] List.decidablePerm

/-- The sorted combination of all rows is sorted by the merge ordering. -/
theorem sortRows_sorted (rs : List Row) : List.Sorted rowLE (sortRows rs) :=
  List.sorted_insertionSort rowLE rs

/-- Sorting permutes the rows. -/
theorem sortRows_perm (rs : List Row) : (sortRows rs).Perm rs :=
  List.perm_insertionSort rowLE rs

/-- Two permuted row multisets sort to the same sequence: the merge ordering
is total and antisymmetric, so the sorted arrangement is unique. -/
theorem sortRows_congr {as bs : List Row} (h : as.Perm bs) :
    sortRows as = sortRows bs :=
  List.eq_of_perm_of_sorted
    ((sortRows_perm as).trans (h.trans (sortRows_perm bs).symm))
    (sortRows_sorted as) (sortRows_sorted bs)

/-- Deduplication only removes rows. -/
theorem dedupSeen_sublist :
    ∀ (rs : List Row) (seen : List Nat), (dedupSeen rs seen).Sublist rs
  | [], _ => List.Sublist.refl _
  | r :: rs, seen => by
    by_cases hmem : r.id ∈ seen
    · simpa [dedupSeen, hmem] using (dedupSeen_sublist rs seen).cons r
    · simpa [dedupSeen, hmem] using (dedupSeen_sublist rs (r.id :: seen)).cons₂ r

/-- No identifier already marked as seen is emitted by deduplication. -/
theorem dedupSeen_id_not_seen (rs : List Row) :
    ∀ (seen : List Nat) (x : Nat),
      x ∈ (dedupSeen rs seen).map Row.id → x ∉ seen := by
  induction rs with
  | nil => intro seen x hx; simp [dedupSeen] at hx
  | cons r rs ih =>
    intro seen x hx
    by_cases hmem : r.id ∈ seen
    · rw [dedupSeen, if_pos hmem] at hx
      exact ih seen x hx
    · rw [dedupSeen, if_neg hmem] at hx
      simp only [List.map_cons, List.mem_cons] at hx
      rcases hx with rfl | hx
      · exact hmem
      · intro hseen
        exact ih (r.id :: seen) x hx (List.mem_cons_of_mem _ hseen)

/-- The identifiers surviving deduplication are pairwise distinct. -/
theorem dedupSeen_id_nodup (rs : List Row) :
    ∀ seen : List Nat, ((dedupSeen rs seen).map Row.id).Nodup := by
  induction rs with
  | nil => intro seen; simp [dedupSeen]
  | cons r rs ih =>
    intro seen
    by_cases hmem : r.id ∈ seen
    · rw [dedupSeen, if_pos hmem]
      exact ih seen
    · rw [dedupSeen, if_neg hmem]
      simp only [List.map_cons, List.nodup_cons]
      refine ⟨fun hx => ?_, ih (r.id :: seen)⟩
      exact dedupSeen_id_not_seen rs (r.id :: seen) r.id hx
        (List.mem_cons_self _ _)

/-- The final merged window is a sublist of the deduplicated sequence. -/
theorem mergeStep_sublist (off lim : Nat) (results : List (List Row)) :
    (mergeStep off lim results).Sublist
      (dedupByIds (sortRows results.flatten)) :=
  (List.take_sublist _ _).trans (List.drop_sublist _ _)

/-- The merge step is determined by the multiset of contributed rows: any
permutation of the per-collection row sequences merges identically. -/
theorem mergeStep_congr {xs ys : List (List Row)} (off lim : Nat)
    (h : xs.Perm ys) : mergeStep off lim xs = mergeStep off lim ys := by
  unfold mergeStep
  rw [sortRows_congr (List.Perm.flatten h)]

/-- C1: the output of the federation engine's merge step is sorted by the
plan's ordering key (ties broken by record identifier), contains no two rows
with the same record identifier, and after applying offset and limit
globally has length `min(limit, total-deduplicated-count - offset)`. -/
theorem mergeStep_correct (off lim : Nat) (results : List (List Row)) :
    List.Sorted rowLE (mergeStep off lim results) ∧
    ((mergeStep off lim results).map Row.id).Nodup ∧
    (mergeStep off lim results).length =
      min lim (dedupCount results - off) := by
  refine ⟨?_, ?_, ?_⟩
  · exact List.Pairwise.sublist
      ((mergeStep_sublist off lim results).trans (dedupSeen_sublist _ _))
      (sortRows_sorted _)
  · exact List.Nodup.sublist
      ((mergeStep_sublist off lim results).map Row.id)
      (dedupSeen_id_nodup _ [])
  · simp [mergeStep, dedupCount, dedupByIds, List.length_take,
      List.length_drop]

/-- C2: permuting the completion order of the per-collection tasks (all
inputs and per-collection row sequences held fixed) never changes the final
merged row sequence returned by `execute_multi_collection`, under either
failure policy. -/
theorem execute_multi_collection_order_independent
    (off lim : Nat) (policy : Policy)
    (l l' : List (String × TaskOutcome)) (h : l.Perm l') :
    (execute_multi_collection off lim policy l).toOption.map
        ExecutionResult.rows =
      (execute_multi_collection off lim policy l').toOption.map
        ExecutionResult.rows := by
  have hrows : mergeStep off lim (collectRows l) =
      mergeStep off lim (collectRows l') :=
    mergeStep_congr off lim (h.filterMap _)
  have hperm : (collectErrors l).Perm (collectErrors l') := h.filterMap _
  cases policy with
  | bestEffort => simp [execute_multi_collection, hrows, Except.toOption]
  | failFast =>
    by_cases he : collectErrors l = []
    · have he' : collectErrors l' = [] := (he ▸ hperm.symm).eq_nil
      simp [execute_multi_collection, he, he', hrows, Except.toOption]
    · have he' : collectErrors l' ≠ [] := by
        intro hnil
        exact he (hnil ▸ hperm).eq_nil
      simp [execute_multi_collection, List.isEmpty_iff, he, he',
        Except.toOption]

/-- Concrete instantiation of C2: exchanging which of two collections'
tasks completed first leaves the merged rows unchanged. -/
theorem execute_multi_collection_order_independent_witness :
    (execute_multi_collection 0 10 Policy.bestEffort
        [("a", Except.ok [⟨1, 5⟩]), ("b", Except.ok [⟨2, 3⟩])]).toOption.map
      ExecutionResult.rows =
    (execute_multi_collection 0 10 Policy.bestEffort
        [("b", Except.ok [⟨2, 3⟩]), ("a", Except.ok [⟨1, 5⟩])]).toOption.map
      ExecutionResult.rows :=
  execute_multi_collection_order_independent 0 10 Policy.bestEffort
    _ _ (by decide)

/-- C3: with one collection's task out of three failing, `best-effort`
returns the merged rows of the two succeeding collections with a diagnostic
naming the failed collection, while `fail-fast` raises an `ExecutionError`
carrying the per-collection error context and returns no result. -/
theorem execute_multi_collection_partial_failure
    (off lim : Nat) (tasks : List (String × TaskOutcome))
    (g1 g2 b : String) (r1 r2 : List Row) (e : String)
    (h : tasks.Perm
      [(g1, Except.ok r1), (g2, Except.ok r2), (b, Except.error e)]) :
    execute_multi_collection off lim Policy.bestEffort tasks =
      .ok ⟨mergeStep off lim [r1, r2],
           (mergeStep off lim [r1, r2]).length, [b]⟩ ∧
    execute_multi_collection off lim Policy.failFast tasks =
      .error ⟨[(b, e)]⟩ := by
  have herr : collectErrors tasks = [(b, e)] :=
    List.perm_singleton.mp (h.filterMap _)
  have hrows : mergeStep off lim (collectRows tasks) =
      mergeStep off lim [r1, r2] :=
    mergeStep_congr off lim (h.filterMap _)
  constructor
  · simp [execute_multi_collection, herr, hrows]
  · simp [execute_multi_collection, herr, hrows]

/-- Concrete instantiation of C3: three collections with the failing task
completing first. -/
theorem execute_multi_collection_partial_failure_witness :
    execute_multi_collection 0 10 Policy.bestEffort
        [("beta", Except.error "boom"), ("alpha", Except.ok [⟨1, 10⟩]),
         ("gamma", Except.ok [⟨2, 5⟩])] =
      .ok ⟨mergeStep 0 10 [[⟨1, 10⟩], [⟨2, 5⟩]],
           (mergeStep 0 10 [[⟨1, 10⟩], [⟨2, 5⟩]]).length, ["beta"]⟩ ∧
    execute_multi_collection 0 10 Policy.failFast
        [("beta", Except.error "boom"), ("alpha", Except.ok [⟨1, 10⟩]),
         ("gamma", Except.ok [⟨2, 5⟩])] =
      .error ⟨[("beta", "boom")]⟩ :=
  execute_multi_collection_partial_failure 0 10 _ "alpha" "gamma" "beta"
    [⟨1, 10⟩] [⟨2, 5⟩] "boom" (by decide)

/-! ## Planner lemmas -/

/-- A bind over `Except` yields `ok` exactly when both stages do. -/
theorem bind_ok_iff {ε α β : Type} (x : Except ε α) (f : α → Except ε β)
    (b : β) : (x >>= f) = .ok b ↔ ∃ a, x = .ok a ∧ f a = .ok b := by
  cases x <;> simp [Except.bind, Bind.bind]

/-- A bind over `Except` fails exactly when one of its stages fails. -/
theorem bind_err_iff {ε α β : Type} (x : Except ε α) (f : α → Except ε β)
    (e : ε) : (x >>= f) = .error e ↔
      x = .error e ∨ ∃ a, x = .ok a ∧ f a = .error e := by
  cases x <;> simp [Except.bind, Bind.bind]

/-- A successfully resolved field is present in the schema. -/
theorem resolveField_ok_lookup {schema : Schema} {f : String} {t : FieldType}
    (h : resolveField schema f = .ok t) : (schema.lookup f).isSome := by
  cases hl : schema.lookup f with
  | none =>
    simp only [resolveField, hl] at h
    exact Except.noConfusion h
  | some t' => simp

/-- A field-resolution error names a field absent from the schema. -/
theorem resolveField_err_lookup {schema : Schema} {f g : String}
    (h : resolveField schema f = .error (.unresolvedField g)) :
    schema.lookup g = none := by
  cases hl : schema.lookup f with
  | none =>
    simp only [resolveField, hl, Except.error.injEq,
      PlanningError.unresolvedField.injEq] at h
    exact h ▸ hl
  | some t' =>
    simp only [resolveField, hl] at h
    exact Except.noConfusion h

/-- A predicate tree that passes checking only references schema fields. -/
theorem checkPred_fields {schema : Schema} :
    ∀ {p : Pred}, checkPred schema p = .ok () →
      ∀ f ∈ predFields p, (schema.lookup f).isSome := by
  intro p
  induction p with
  | and p q ihp ihq =>
    intro h f hf
    simp only [checkPred] at h
    rcases (bind_ok_iff _ _ _).mp h with ⟨⟨⟩, hp, hq⟩
    simp only [predFields, List.mem_append] at hf
    rcases hf with hf | hf
    · exact ihp hp f hf
    · exact ihq hq f hf
  | or p q ihp ihq =>
    intro h f hf
    simp only [checkPred] at h
    rcases (bind_ok_iff _ _ _).mp h with ⟨⟨⟩, hp, hq⟩
    simp only [predFields, List.mem_append] at hf
    rcases hf with hf | hf
    · exact ihp hp f hf
    · exact ihq hq f hf
  | not p ih =>
    intro h f hf
    simp only [checkPred] at h
    exact ih h f hf
  | cmp fn op l =>
    intro h f hf
    simp only [checkPred] at h
    rcases (bind_ok_iff _ _ _).mp h with ⟨t, hres, _⟩
    simp only [predFields, List.mem_singleton] at hf
    subst hf
    exact resolveField_ok_lookup hres
  | inList fn vals =>
    intro h f hf
    simp only [checkPred] at h
    rcases (bind_ok_iff _ _ _).mp h with ⟨t, hres, _⟩
    simp only [predFields, List.mem_singleton] at hf
    subst hf
    exact resolveField_ok_lookup hres
  | similarity vec k =>
    intro h f hf
    simp only [predFields] at hf
    exact absurd hf (List.not_mem_nil f)

/-- A predicate-checking failure naming an unresolved field names a field
absent from the schema. -/
theorem checkPred_err {schema : Schema} :
    ∀ {p : Pred} {g : String},
      checkPred schema p = .error (.unresolvedField g) →
      schema.lookup g = none := by
  intro p
  induction p with
  | and p q ihp ihq =>
    intro g h
    simp only [checkPred] at h
    rcases (bind_err_iff _ _ _).mp h with h | ⟨⟨⟩, _, h⟩
    · exact ihp h
    · exact ihq h
  | or p q ihp ihq =>
    intro g h
    simp only [checkPred] at h
    rcases (bind_err_iff _ _ _).mp h with h | ⟨⟨⟩, _, h⟩
    · exact ihp h
    · exact ihq h
  | not p ih =>
    intro g h
    simp only [checkPred] at h
    exact ih h
  | cmp fn op l =>
    intro g h
    simp only [checkPred] at h
    rcases (bind_err_iff _ _ _).mp h with h | ⟨t, _, h⟩
    · exact resolveField_err_lookup h
    · split at h <;> simp at h
  | inList fn vals =>
    intro g h
    simp only [checkPred] at h
    rcases (bind_err_iff _ _ _).mp h with h | ⟨t, _, h⟩
    · exact resolveField_err_lookup h
    · simp at h
  | similarity vec k =>
    intro g h
    simp only [checkPred] at h
    exact Except.noConfusion h

/-- A key present as a pair in an association list is found by lookup. -/
theorem lookup_isSome_of_mem {schema : Schema} {f : String} {t : FieldType}
    (h : (f, t) ∈ schema) : (schema.lookup f).isSome := by
  induction schema with
  | nil => simp at h
  | cons p rest ih =>
    rcases List.mem_cons.mp h with h | h
    · subst h
      simp [List.lookup]
    · by_cases he : f = p.1
      · subst he
        simp [List.lookup]
      · simp only [List.lookup, beq_eq_false_iff_ne.mpr he]
        exact ih h

/-- A projection item list that passes checking only references schema
fields. -/
theorem checkProjItems_fields {schema : Schema} :
    ∀ {xs : List ProjItem}, checkProjItems schema xs = .ok () →
      ∀ f ∈ (xs.map projItemFields).flatten, (schema.lookup f).isSome := by
  intro xs
  induction xs with
  | nil =>
    intro h f hf
    simp at hf
  | cons x rest ih =>
    intro h f hf
    cases x with
    | field fn a =>
      simp only [checkProjItems] at h
      rcases (bind_ok_iff _ _ _).mp h with ⟨t, hres, hrest⟩
      simp only [List.map_cons, List.flatten_cons, projItemFields,
        List.mem_append, List.mem_singleton] at hf
      rcases hf with rfl | hf
      · exact resolveField_ok_lookup hres
      · exact ih hrest f hf
    | recordId =>
      simp only [checkProjItems] at h
      simp only [List.map_cons, List.flatten_cons, projItemFields,
        List.nil_append] at hf
      exact ih h f hf
    | similarityScore =>
      simp only [checkProjItems] at h
      simp only [List.map_cons, List.flatten_cons, projItemFields,
        List.nil_append] at hf
      exact ih h f hf
    | rawVector =>
      simp only [checkProjItems] at h
      simp only [List.map_cons, List.flatten_cons, projItemFields,
        List.nil_append] at hf
      exact ih h f hf

/-- A projection-checking failure naming an unresolved field names a field
absent from the schema. -/
theorem checkProjItems_err {schema : Schema} :
    ∀ {xs : List ProjItem} {g : String},
      checkProjItems schema xs = .error (.unresolvedField g) →
      schema.lookup g = none := by
  intro xs
  induction xs with
  | nil =>
    intro g h
    simp only [checkProjItems] at h
    exact Except.noConfusion h
  | cons x rest ih =>
    intro g h
    cases x with
    | field fn a =>
      simp only [checkProjItems] at h
      rcases (bind_err_iff _ _ _).mp h with h | ⟨t, _, h⟩
      · exact resolveField_err_lookup h
      · exact ih h
    | recordId =>
      simp only [checkProjItems] at h
      exact ih h
    | similarityScore =>
      simp only [checkProjItems] at h
      exact ih h
    | rawVector =>
      simp only [checkProjItems] at h
      exact ih h

/-- Every field projected by a `*` expansion is present in the schema. -/
theorem expandStar_fields (schema : Schema) :
    ∀ f ∈ ((expandStar schema).map projItemFields).flatten,
      (schema.lookup f).isSome := by
  intro f hf
  simp only [expandStar, List.map_map, List.mem_flatten, List.mem_map,
    Function.comp] at hf
  obtain ⟨l, ⟨⟨a, t⟩, hmem, rfl⟩, hfl⟩ := hf
  simp only [projItemFields, List.mem_singleton] at hfl
  subst hfl
  exact lookup_isSome_of_mem hmem

/-- An order clause that passes checking only references schema fields. -/
theorem checkOrder_fields {schema : Schema} {o : Option OrderClause}
    (h : checkOrder schema o = .ok ()) :
    ∀ f ∈ (match o with
            | some ⟨OrderKey.field g, _⟩ => [g]
            | _ => ([] : List String)), (schema.lookup f).isSome := by
  intro f hf
  match o with
  | none => simp at hf
  | some ⟨OrderKey.similarity, d⟩ => simp at hf
  | some ⟨OrderKey.field g, d⟩ =>
    simp only [List.mem_singleton] at hf
    subst hf
    cases hr : resolveField schema f with
    | ok t => exact resolveField_ok_lookup hr
    | error e =>
      simp only [checkOrder, hr, Except.map] at h
      exact Except.noConfusion h

/-- An order-checking failure naming an unresolved field names a field
absent from the schema. -/
theorem checkOrder_err {schema : Schema} {o : Option OrderClause}
    {g : String} (h : checkOrder schema o = .error (.unresolvedField g)) :
    schema.lookup g = none := by
  match o with
  | none =>
    simp only [checkOrder] at h
    exact Except.noConfusion h
  | some ⟨OrderKey.similarity, d⟩ =>
    simp only [checkOrder] at h
    exact Except.noConfusion h
  | some ⟨OrderKey.field fn, d⟩ =>
    cases hr : resolveField schema fn with
    | ok t =>
      simp only [checkOrder, hr, Except.map] at h
      exact Except.noConfusion h
    | error e =>
      simp only [checkOrder, hr, Except.map, Except.error.injEq] at h
      exact resolveField_err_lookup (h ▸ hr)

/-- Limit validation never reports an unresolved field. -/
theorem checkLimit_not_unresolved {x : Option Int} {g : String}
    (h : checkLimit x = .error (.unresolvedField g)) : False := by
  match x with
  | none =>
    simp only [checkLimit] at h
    exact Except.noConfusion h
  | some n =>
    simp only [checkLimit] at h
    split at h <;> simp at h

/-- Offset validation never reports an unresolved field. -/
theorem checkOffset_not_unresolved {x : Option Int} {g : String}
    (h : checkOffset x = .error (.unresolvedField g)) : False := by
  match x with
  | none =>
    simp only [checkOffset] at h
    exact Except.noConfusion h
  | some n =>
    simp only [checkOffset] at h
    split at h <;> simp at h

/-- C4: `build_plan` either returns a plan in which every field reference in
the projection, predicate, and order clauses is present in the supplied
schema, or fails with a `PlanningError` naming a field genuinely absent from
the schema; it never returns a plan containing an unresolved reference, and
(by the `Except` short-circuit) the first validation error aborts planning
with no partial plan. -/
theorem build_plan_resolved (stmt : Statement) (schema : Schema) :
    (∀ plan, build_plan stmt schema = .ok plan →
        ∀ f ∈ planFieldRefs plan, (schema.lookup f).isSome) ∧
    (∀ g, build_plan stmt schema = .error (.unresolvedField g) →
        schema.lookup g = none) := by
  constructor
  · intro plan h f hf
    unfold build_plan at h
    rcases (bind_ok_iff _ _ _).mp h with ⟨proj, hproj, h⟩
    rcases (bind_ok_iff _ _ _).mp h with ⟨⟨⟩, hwhere, h⟩
    rcases (bind_ok_iff _ _ _).mp h with ⟨⟨⟩, horder, h⟩
    rcases (bind_ok_iff _ _ _).mp h with ⟨lim, hlim, h⟩
    rcases (bind_ok_iff _ _ _).mp h with ⟨offs, hoffs, h⟩
    injection h with h
    subst h
    simp only [planFieldRefs, List.mem_append] at hf
    rcases hf with (hf | hf) | hf
    · cases hsp : stmt.projection with
      | star =>
        rw [hsp] at hproj
        simp only [checkProjection] at hproj
        injection hproj with hproj
        subst hproj
        exact expandStar_fields schema f hf
      | items xs =>
        rw [hsp] at hproj
        simp only [checkProjection] at hproj
        rcases (bind_ok_iff _ _ _).mp hproj with ⟨⟨⟩, hchk, hx⟩
        injection hx with hx
        subst hx
        exact checkProjItems_fields hchk f hf
    · cases hw : stmt.whereClause with
      | none =>
        rw [hw] at hf
        exact absurd hf (List.not_mem_nil f)
      | some p =>
        rw [hw] at hwhere hf
        simp only [checkWhere] at hwhere
        exact checkPred_fields hwhere f hf
    · exact checkOrder_fields horder f hf
  · intro g h
    unfold build_plan at h
    rcases (bind_err_iff _ _ _).mp h with h | ⟨proj, hproj, h⟩
    · cases hsp : stmt.projection with
      | star =>
        rw [hsp] at h
        simp only [checkProjection] at h
        exact Except.noConfusion h
      | items xs =>
        rw [hsp] at h
        simp only [checkProjection] at h
        rcases (bind_err_iff _ _ _).mp h with h | ⟨⟨⟩, _, h⟩
        · exact checkProjItems_err h
        · exact Except.noConfusion h
    · rcases (bind_err_iff _ _ _).mp h with h | ⟨⟨⟩, _, h⟩
      · cases hw : stmt.whereClause with
        | none =>
          rw [hw] at h
          simp only [checkWhere] at h
          exact Except.noConfusion h
        | some p =>
          rw [hw] at h
          simp only [checkWhere] at h
          exact checkPred_err h
      · rcases (bind_err_iff _ _ _).mp h with h | ⟨⟨⟩, _, h⟩
        · exact checkOrder_err h
        · rcases (bind_err_iff _ _ _).mp h with h | ⟨lim, _, h⟩
          · exact absurd h checkLimit_not_unresolved
          · rcases (bind_err_iff _ _ _).mp h with h | ⟨offs, _, h⟩
            · exact absurd h checkOffset_not_unresolved
            · exact Except.noConfusion h

/-- Concrete instantiation of C4: a plan built against a two-field schema
resolves its projected field, and planning a query referencing a missing
field fails naming a field absent from the schema. -/
theorem build_plan_resolved_witness :
    (([("category", FieldType.text), ("price", FieldType.numeric)] :
        Schema).lookup "category").isSome ∧
    ([("category", FieldType.text)] : Schema).lookup "missing" = none :=
  ⟨(build_plan_resolved
      ⟨.items [.field "category" none], "docs",
        some (.cmp "price" .gt (.num 3)),
        some ⟨.field "price", false⟩, some 5, none⟩
      [("category", FieldType.text), ("price", FieldType.numeric)]).1
    ⟨[.field "category" none], some (.cmp "price" .gt (.num 3)),
      some ⟨.field "price", false⟩, some 5, none, ["docs"]⟩
    (by decide) "category" (by decide),
   (build_plan_resolved
      ⟨.items [.field "missing" none], "docs", none, none, none, none⟩
      [("category", FieldType.text)]).2 "missing" (by decide)⟩

/-- C5: `parse` is deterministic — two runs on the same text yield
structurally equal ASTs (it is a pure function of the text). -/
theorem parse_deterministic (text : String) (a b : Statement)
    (h1 : parse text = .ok a) (h2 : parse text = .ok b) : a = b :=
  Except.ok.inj (h1 ▸ h2)

/-- Concrete instantiation of C5: a sample query parses, and parsing it
twice gives the same AST. -/
theorem parse_deterministic_witness :
    parse "SELECT ID FROM docs LIMIT 2" =
      .ok ⟨.items [.recordId], "docs", none, none, some 2, none⟩ ∧
    (⟨.items [.recordId], "docs", none, none, some 2, none⟩ : Statement) =
      ⟨.items [.recordId], "docs", none, none, some 2, none⟩ :=
  ⟨by decide, parse_deterministic "SELECT ID FROM docs LIMIT 2" _ _
    (by decide) (by decide)⟩

/-- C6: the router returns exactly the single matching collection when the
predicate pins the routing field to one equality value with a matching rule,
fans out to all registered collections when no routing rule exists for the
field, and on the concrete scenario (rule `tenant = 't1' → "t1_docs"`,
predicate `tenant = 't1'`) selects exactly `["t1_docs"]`. -/
theorem route_spec :
    (∀ (plan : QueryPlan) (reg : Registry), reg.rules = none →
        route plan reg = reg.collections) ∧
    (∀ (plan : QueryPlan) (reg : Registry) (rs : List (String × String))
        (p : Pred) (v c : String),
        reg.rules = some rs → plan.pred = some p →
        (eqValuesOn reg.routingField p).dedup = [v] →
        rs.lookup v = some c →
        route plan reg = [c]) ∧
    route ⟨[], some (.cmp "tenant" .eq (.str "t1")), none, none, none, []⟩
        ⟨"tenant", some [("t1", "t1_docs")], ["t1_docs", "t2_docs"]⟩ =
      ["t1_docs"] := by
  refine ⟨?_, ?_, ?_⟩
  · intro plan reg h
    simp [route, h]
  · intro plan reg rs p v c hrules hpred hvals hlook
    simp [route, hrules, hpred, hvals, hlook]
  · decide

/-- Concrete instantiation of C6: fan-out with no rule set, and a point
lookup on a two-rule registry. -/
theorem route_spec_witness :
    route ⟨[], none, none, none, none, []⟩ ⟨"tenant", none, ["a", "b"]⟩ =
      ["a", "b"] ∧
    route ⟨[], some (.cmp "tenant" .eq (.str "t2")), none, none, none, []⟩
        ⟨"tenant", some [("t1", "c1"), ("t2", "c2")], ["c1", "c2", "c3"]⟩ =
      ["c2"] :=
  ⟨route_spec.1 _ _ rfl,
   route_spec.2.1 _ _ [("t1", "c1"), ("t2", "c2")]
     (.cmp "tenant" .eq (.str "t2")) "t2" "c2" rfl rfl (by decide)
     (by decide)⟩

/-! ## Plan introspection round-trip lemmas -/

/-- Literals survive the render/read cycle. -/
theorem valueToLit_litToValue (l : Lit) :
    valueToLit (litToValue l) = some l := by
  cases l <;> rfl

/-- Comparison operators survive the render/read cycle. -/
theorem nameToCmpOp_cmpOpName (op : CmpOp) :
    nameToCmpOp (cmpOpName op) = some op := by
  cases op <;> rfl

/-- Reading back an elementwise-rendered list recovers the list. -/
theorem mapM_roundtrip {α : Type} (g : α → Value) (h : Value → Option α)
    (hg : ∀ x, h (g x) = some x) :
    ∀ l : List α, (l.map g).mapM h = some l := by
  intro l
  induction l with
  | nil => rfl
  | cons x xs ih =>
    rw [List.map_cons, List.mapM_cons, hg x, ih]
    rfl

set_option maxHeartbeats 1000000 in
/-- Predicate trees survive the render/read cycle. -/
theorem valueToPred_predToValue (p : Pred) :
    valueToPred (predToValue p) = some p := by
  induction p with
  | and p q ihp ihq =>
    simp only [predToValue, valueToPred, ihp, ihq]
    rfl
  | or p q ihp ihq =>
    simp only [predToValue, valueToPred, ihp, ihq]
    rfl
  | not p ih =>
    simp only [predToValue, valueToPred, ih]
    rfl
  | cmp f op l =>
    simp only [predToValue, valueToPred, nameToCmpOp_cmpOpName,
      valueToLit_litToValue]
    rfl
  | inList f vals =>
    simp only [predToValue, valueToPred,
      mapM_roundtrip litToValue valueToLit valueToLit_litToValue]
    rfl
  | similarity vec k =>
    simp only [predToValue, valueToPred, valueToNat,
      mapM_roundtrip Value.num
        (fun v => match v with | Value.num n => some n | _ => none)
        (fun x => rfl)]
    rfl

/-- Projection items survive the render/read cycle. -/
theorem valueToProjItem_projItemToValue (x : PlanProjectionItem) :
    valueToProjItem (projItemToValue x) = some x := by
  cases x with
  | field f a => cases a <;> rfl
  | recordId => rfl
  | similarityScore => rfl
  | rawVector => rfl

/-- The ordering clause survives the render/read cycle. -/
theorem valueToOrder_orderToValue (o : OrderClause) :
    valueToOrder (orderToValue o) = some o := by
  obtain ⟨k, asc⟩ := o
  cases k <;> rfl

/-- A rendered predicate is never the `null` scalar. -/
theorem predToValue_ne_null (p : Pred) : predToValue p ≠ Value.null := by
  cases p <;> exact fun h => Value.noConfusion h

/-- A rendered ordering clause is never the `null` scalar. -/
theorem orderToValue_ne_null (o : OrderClause) :
    orderToValue o ≠ Value.null :=
  fun h => Value.noConfusion h

/-- Optional components survive the render/read cycle whenever the present
case does and is never rendered as `null`. -/
theorem valueToOpt_optToValue {α : Type} (g : α → Value) (f : Value → Option α)
    (hfg : ∀ x, f (g x) = some x) (hnull : ∀ x, g x ≠ Value.null) :
    ∀ o : Option α, valueToOpt f (optToValue g o) = some o := by
  intro o
  cases o with
  | none => rfl
  | some x =>
    show valueToOpt f (g x) = some (some x)
    cases hgx : g x
    case null => exact absurd hgx (hnull x)
    all_goals
      simp only [valueToOpt]
      rw [← hgx, hfg x]
      rfl

/-- C7: rendering a `QueryPlan` with `plan_to_dict` and reading the nested
structure back field by field loses no information — every projection item,
predicate node, ordering key, limit, and offset of the plan is recovered. -/
theorem plan_to_dict_roundtrip (plan : QueryPlan) :
    plan_from_dict (plan_to_dict plan) = some plan := by
  obtain ⟨proj, pred, ord, lim, offs, targets⟩ := plan
  simp only [plan_to_dict, plan_from_dict,
    mapM_roundtrip projItemToValue valueToProjItem
      valueToProjItem_projItemToValue,
    mapM_roundtrip Value.str valueToStr (fun s => rfl),
    valueToOpt_optToValue predToValue valueToPred valueToPred_predToValue
      predToValue_ne_null,
    valueToOpt_optToValue orderToValue valueToOrder valueToOrder_orderToValue
      orderToValue_ne_null,
    valueToOpt_optToValue (fun n => Value.num (Int.ofNat n)) valueToNat
      (fun n => rfl) (fun n h => Value.noConfusion h)]
  rfl

/-- C8: each of the six multi-collection names is listed in `__all__` if and
only if the imports of `.multi_collection` and `.adapters` both succeed, and
availability is exposed as the flag `_MULTI_COLLECTION_AVAILABLE` computed
once from those imports. -/
theorem multi_collection_exports (multiOk adaptersOk : Bool) (name : String)
    (h : name ∈ multiExports) :
    (name ∈ __all__ multiOk adaptersOk ↔ (multiOk && adaptersOk) = true) ∧
    _MULTI_COLLECTION_AVAILABLE multiOk adaptersOk =
      (multiOk && adaptersOk) := by
  have hcore : name ∉ coreExports := by fin_cases h <;> decide
  refine ⟨?_, rfl⟩
  cases multiOk <;> cases adaptersOk <;>
    simp [__all__, _MULTI_COLLECTION_AVAILABLE, List.mem_append, hcore, h]

/-- Concrete instantiation of C8: `CollectionRouter` is exported when both
imports succeed. -/
theorem multi_collection_exports_witness :
    ("CollectionRouter" ∈ __all__ true true ↔ (true && true) = true) ∧
    _MULTI_COLLECTION_AVAILABLE true true = (true && true) :=
  multi_collection_exports true true "CollectionRouter" (by decide)

/-- C9 counterexample: the always-present core export list of
`src/__init__.py` has twelve entries, not eleven as the claim counts the
names it lists. -/
theorem coreExports_not_eleven : ¬ coreExports.length = 11 := by decide

/-- C9 (amended: the core names number twelve, not eleven): when importing
the multi-collection modules fails, `__all__` is exactly the twelve core
names, unchanged. -/
theorem core_exports_unchanged (multiOk adaptersOk : Bool)
    (h : (multiOk && adaptersOk) = false) :
    __all__ multiOk adaptersOk = coreExports ∧ coreExports.length = 12 := by
  constructor
  · simp [__all__, _MULTI_COLLECTION_AVAILABLE, h]
  · decide

/-- Concrete instantiation of C9: the first import failing leaves exactly
the core names. -/
theorem core_exports_unchanged_witness :
    __all__ false true = coreExports ∧ coreExports.length = 12 :=
  core_exports_unchanged false true (by decide)

/-- C10: `read_file` returns exactly the UTF-8 text of the file at
`DOCS_ROOT / relative_path`, fails on a missing or non-UTF-8 file, performs
no containment validation (a `..` segment escapes the docs directory), and
an absolute `relative_path` makes the path join discard `DOCS_ROOT`
entirely. -/
theorem read_file_spec :
    (∀ (fs : FileSystem) (rel t : String),
        fs (joinPath DOCS_ROOT (parsePath rel)) = some (.utf8 t) →
        read_file fs rel = .ok t) ∧
    (∀ (fs : FileSystem) (rel : String),
        fs (joinPath DOCS_ROOT (parsePath rel)) = none →
        read_file fs rel = .error .notFound) ∧
    (∀ (fs : FileSystem) (rel : String),
        fs (joinPath DOCS_ROOT (parsePath rel)) = some .binary →
        read_file fs rel = .error .decodeError) ∧
    insideDocsRoot (joinPath DOCS_ROOT (parsePath "../secret.txt")) =
      false ∧
    joinPath DOCS_ROOT (parsePath "/etc/passwd") = parsePath "/etc/passwd" := by
  refine ⟨?_, ?_, ?_, ?_, ?_⟩
  · intro fs rel t h
    simp [read_file, h]
  · intro fs rel h
    simp [read_file, h]
  · intro fs rel h
    simp [read_file, h]
  · decide
  · decide

/-- Concrete instantiation of C10: reading a docs file returns its text, and
a missing file raises. -/
theorem read_file_spec_witness :
    read_file
        (fun p => if p = ⟨true, ["repo", "src", "docs", "index.md"]⟩
                  then some (.utf8 "hello") else none)
        "index.md" = .ok "hello" ∧
    read_file (fun _ => none) "index.md" = .error .notFound :=
  ⟨read_file_spec.1 _ "index.md" "hello" (by decide),
   read_file_spec.2.1 _ "index.md" (by decide)⟩

end ChromaSQL
